import Mathlib

/-!
Verification of the sneak-link gateway core: a shallow embedding of the
request-admission engine (handlers), the token authority (auth/token.go),
the sliding-window rate limiter (ratelimit/ratelimit.go), the share-key
extraction (proxy) and the service registry (config), with theorems about
the claims of the specification.

Conventions of the embedding:
 - Go time.Time / time.Duration values are integers (nanoseconds); the Go
   comparison a.After(b) is the strict order a > b.
 - Go maps are total functions with the zero value as default (a missing
   key of map[string][]time.Time reads as nil, embedded as the empty list).
 - Backend I/O (the HTTP probe of ValidateShare) is an input of the
   handler function: the probe outcome the backend would return for this
   request is passed as a parameter, and the result records whether the
   handler actually consulted it.
 - The base64/JSON claim encoding and the HMAC-SHA256 primitive of
   auth/token.go are abstracted as a codec parameter; theorems assume only
   the properties the Go primitives have (the encoding round-trips, and
   base64url output contains no dot and is non-empty).
-/

namespace SneakLink

/-! ### String helpers mirroring the Go standard library calls used -/

/-- Character-level prefix test (Go strings.HasPrefix). -/
def prefixChars : List Char → List Char → Bool
  | _, [] => true
  | [], _ :: _ => false
  | c :: cs, p :: ps => c = p && prefixChars cs ps

/-- Go strings.HasPrefix. -/
def goHasPrefix (s pre : String) : Bool :=
  prefixChars s.data pre.data

/-- Go strings.TrimSpace: drop leading and trailing whitespace. -/
def goTrimSpace (s : String) : String :=
  String.mk (((s.data.dropWhile Char.isWhitespace).reverse.dropWhile
    Char.isWhitespace).reverse)

/-- Go strings.Split with a one-character separator: every occurrence of
the separator splits, empty fields (also a trailing one) are kept, and the
result is never the empty list. -/
def splitCharAux (sep : Char) : List Char → List Char → List (List Char)
  | [], current => [current]
  | c :: rest, current =>
    if c = sep then current :: splitCharAux sep rest []
    else splitCharAux sep rest (current ++ [c])

/-- Go strings.Split(s, sep) for a one-character sep. -/
def goSplitChar (s : String) (sep : Char) : List String :=
  (splitCharAux sep s.data []).map String.mk

/-- Go strings.Trim(s, cutset): remove leading and trailing characters
contained in the cutset. -/
def trimCutset (s : String) (cutset : List Char) : String :=
  String.mk (((s.data.dropWhile (fun c => cutset.contains c)).reverse.dropWhile
    (fun c => cutset.contains c)).reverse)

/-- Effect of Go strings.LastIndex(s, half of getClientIP): keep the part
of the string before the last colon; the string is unchanged when it has
no colon. -/
def dropAfterLastColon (cs : List Char) : List Char :=
  if cs.contains ':' then ((cs.reverse.dropWhile (fun c => c ≠ ':')).tail).reverse
  else cs

/-- Whether a string contains the token separator dot. -/
def hasDot (s : String) : Bool :=
  s.data.contains '.'

/-- Number of dot separators in a string. -/
def countDots (s : String) : Nat :=
  (s.data.filter (fun c => c = '.')).length

/-! ### auth/token.go -/

/-- TokenClaims from auth/token.go: issue and expiry instants. -/
structure TokenClaims where
  issuedAt : Int
  expiresAt : Int
deriving DecidableEq, Repr

/-- The serialization and MAC primitives used by auth/token.go:
encode is base64url of the JSON of the claims, decode is the inverse
(base64url decode then JSON unmarshal, either step can fail), and mac is
base64url of the HMAC-SHA256 of the message under the signing key.  They
are abstracted here; theorems assume only properties the Go functions
have (round-trip, no dot in base64url output, non-empty output). -/
structure TokenCodec where
  encode : TokenClaims → String
  decode : String → Option TokenClaims
  mac : String → String → String

/-- GenerateToken from auth/token.go: claims are issuedAt = now and
expiresAt = now + maxAge; the token is the encoded claims, a dot, and the
MAC of the encoded claims under the signing key. -/
def generateToken (tc : TokenCodec) (now maxAge : Int) (signingKey : String) : String :=
  let claims : TokenClaims := { issuedAt := now, expiresAt := now + maxAge }
  let claimsB64 := tc.encode claims
  let signature := tc.mac signingKey claimsB64
  claimsB64 ++ "." ++ signature

/-- Character-level splitToken from auth/token.go: split on the dot, with
the quirk that a final empty segment is dropped (the Go code appends the
trailing accumulator only when it is non-empty). -/
def splitTokenGo : List Char → List Char → List (List Char)
  | [], current => if current = [] then [] else [current]
  | c :: rest, current =>
    if c = '.' then current :: splitTokenGo rest []
    else splitTokenGo rest (current ++ [c])

/-- splitToken from auth/token.go. -/
def splitToken (token : String) : List String :=
  (splitTokenGo token.data []).map String.mk

/-- ValidateToken from auth/token.go: split the token, require exactly two
parts, recompute the MAC of the first part under the signing key and
compare (hmac.Equal is byte equality), decode the claims, and reject when
the current time is strictly after expiresAt (Go time.Now().After(exp)). -/
def validateToken (tc : TokenCodec) (now : Int) (token : String) (signingKey : String) :
    Option TokenClaims :=
  match splitToken token with
  | [claimsB64, signatureB64] =>
    if signatureB64 = tc.mac signingKey claimsB64 then
      match tc.decode claimsB64 with
      | some claims => if claims.expiresAt < now then none else some claims
      | none => none
    else none
  | _ => none

/-! ### ratelimit/ratelimit.go -/

/-- State of the sliding-window rate limiter.  The Go map from client
identity to timestamp slice is a total function defaulting to the empty
list; maxReqs and window are the configured limit and window length. -/
structure RateLimiter where
  requests : String → List Int
  maxReqs : Int
  window : Int

/-- The limiter NewRateLimiter builds: an empty map. -/
def RateLimiter.empty (maxRequests : Int) (window : Int) : RateLimiter :=
  { requests := fun _ => [], maxReqs := maxRequests, window := window }

/-- Point update of the identity-to-timestamps map. -/
def updateMap (m : String → List Int) (ip : String) (v : List Int) : String → List Int :=
  fun k => if k = ip then v else m k

/-- RateLimiter.IsAllowed from ratelimit/ratelimit.go.  Prune the
identity's timestamps to those strictly after the cutoff now - window
(Go keeps reqTime.After(cutoff)); when the pruned count has reached
maxReqs, store the pruned list and refuse without recording the attempt;
otherwise append now and allow.  Returns the Go boolean together with the
updated state. -/
def RateLimiter.isAllowed (rl : RateLimiter) (now : Int) (ip : String) :
    Bool × RateLimiter :=
  let cutoff := now - rl.window
  let validRequests := (rl.requests ip).filter (fun reqTime => cutoff < reqTime)
  if rl.maxReqs ≤ (validRequests.length : Int) then
    (false, { rl with requests := updateMap rl.requests ip validRequests })
  else
    (true, { rl with requests := updateMap rl.requests ip (validRequests ++ [now]) })

/-- RateLimiter.GetRequestCount from ratelimit/ratelimit.go: count the
identity's timestamps still inside the window, without writing anything
(the Go method only holds the read lock). -/
def RateLimiter.getRequestCount (rl : RateLimiter) (now : Int) (ip : String) : Nat :=
  ((rl.requests ip).filter (fun reqTime => now - rl.window < reqTime)).length

/-- One iteration of the cleanup ticker body from ratelimit/ratelimit.go:
prune every identity's list to the window.  The Go delete of identities
whose pruned list is empty is invisible in the total-function model, where
a missing key already reads as the empty list. -/
def RateLimiter.cleanupTick (rl : RateLimiter) (now : Int) : RateLimiter :=
  { rl with
    requests := fun ip => (rl.requests ip).filter (fun reqTime => now - rl.window < reqTime) }

/-- The operations that touch the limiter's shared map. -/
inductive RLOp where
  | allow (now : Int) (ip : String)
  | count (now : Int) (ip : String)
  | tick (now : Int)

/-- State transition of one limiter operation; GetRequestCount reads only,
so its transition is the identity. -/
def RLOp.apply (rl : RateLimiter) : RLOp → RateLimiter
  | .allow now ip => (rl.isAllowed now ip).2
  | .count _ _ => rl
  | .tick now => rl.cleanupTick now

/-- Run a sequence of limiter operations. -/
def runOps (rl : RateLimiter) (ops : List RLOp) : RateLimiter :=
  ops.foldl RLOp.apply rl

/-! ### config/config.go: service types and per-service configuration -/

/-- ServiceType from config/config.go. -/
structure ServiceType where
  name : String
  sharePaths : List String
  validateMethod : String
  fullAccessAfterKnock : Bool
deriving DecidableEq, Repr

/-- The SupportedServices map from config/config.go, as a lookup
function. -/
def supportedServices (name : String) : Option ServiceType :=
  if name = "nextcloud" then
    some { name := "nextcloud", sharePaths := ["/s/"], validateMethod := "head",
           fullAccessAfterKnock := true }
  else if name = "immich" then
    some { name := "immich", sharePaths := ["/share/"], validateMethod := "immichApi",
           fullAccessAfterKnock := true }
  else if name = "paperless" then
    some { name := "paperless", sharePaths := ["/share/"], validateMethod := "head",
           fullAccessAfterKnock := false }
  else none

/-- ServiceConfig from config/config.go: one configured backend. -/
structure ServiceConfig where
  type : String
  url : String
  domain : String
deriving DecidableEq, Repr

/-! ### proxy: share-key extraction -/

/-- extractShareKey from the proxy package: empty unless the path starts
with the given prefix string; otherwise trim the prefix and truncate at
the first slash and at the first question mark. -/
def extractShareKey (sharePath : String) (pre : String) : String :=
  if ¬ goHasPrefix sharePath pre then ""
  else
    let key := sharePath.data.drop pre.data.length
    let key := match key.findIdx? (fun c => c = '/') with
      | some idx => key.take idx
      | none => key
    let key := match key.findIdx? (fun c => c = '?') with
      | some idx => key.take idx
      | none => key
    String.mk key

/-! ### handlers: the request handler of the multi-service gateway -/

/-- The parts of an inbound HTTP request the handler reads.  The cookie
field is the value of the sneak-link-token cookie when the request
carries one (Go r.Cookie returns an error when absent); the two headers
are Go Header.Get results, so an absent header reads as the empty
string. -/
structure Request where
  host : String
  method : String
  path : String
  cookie : Option String
  xForwardedFor : String
  xRealIP : String
  remoteAddr : String

/-- getClientIP from the handlers package: first entry of
X-Forwarded-For when that header is non-empty (strings.Split of a
non-empty string is never empty, so the Go length guard always passes and
the headD default is unreachable), else X-Real-IP trimmed, else
RemoteAddr cut before its last colon and stripped of surrounding IPv6
brackets. -/
def getClientIP (req : Request) : String :=
  if req.xForwardedFor ≠ "" then
    goTrimSpace ((goSplitChar req.xForwardedFor ',').headD "")
  else if req.xRealIP ≠ "" then
    goTrimSpace req.xRealIP
  else
    trimCutset (String.mk (dropAfterLastColon req.remoteAddr.data)) ['[', ']']

/-- Handler.isSharePath: does some configured share-path prefix of the
service type start the request path. -/
def isSharePath (path : String) (st : ServiceType) : Bool :=
  st.sharePaths.any (fun sp => goHasPrefix path sp)

/-- The session cookie the handler sets: its value is the generated token
and its Domain is the service's configured domain.  (Name
sneak-link-token, Path /, HttpOnly, Secure, SameSite Lax and Max-Age in
seconds are constants of the Go code and carry no decision logic.) -/
structure Cookie where
  value : String
  domain : String
deriving DecidableEq, Repr

/-- Configuration the handler reads: hostname registry, signing key and
cookie lifetime (the corresponding fields of config.Config). -/
structure HandlerConfig where
  services : String → Option ServiceConfig
  signingKey : String
  cookieMaxAge : Int

/-- Observable outcome of one request: response status, whether the
request was forwarded to the backend, the cookie set (if any), the token
generated (if any), whether the rate limiter was consulted, whether
ValidateShare was invoked, and the rate-limiter state afterwards. -/
structure ServeResult where
  status : Nat
  proxied : Bool
  setCookie : Option Cookie
  tokenGenerated : Option String
  limiterConsulted : Bool
  validationInvoked : Bool
  rl : RateLimiter

/-- Whether the request carries a cookie whose value passes token
verification (the CheckToken test of Handler.ServeHTTP). -/
def cookieTokenValid (tc : TokenCodec) (now : Int) (signingKey : String)
    (req : Request) : Bool :=
  match req.cookie with
  | some v => (validateToken tc now v signingKey).isSome
  | none => false

/-- Handler.handleShareKnock.  The backend probe outcome is the
valResult input: none is a transport error (err non-nil in Go, answered
500), some (valid, status) is a completed probe.  An invalid share is
answered 404 whatever the backend status was; a valid share is proxied,
with a token generated and attached as a cookie scoped to the service's
domain exactly when the service type grants full access after the knock.
(Go GenerateToken can only fail on JSON marshalling, which cannot happen
for TokenClaims, so the token-error branch is dead and not modelled.) -/
def handleShareKnock (cfg : HandlerConfig) (tc : TokenCodec) (now : Int)
    (svc : ServiceConfig) (st : ServiceType) (rl : RateLimiter)
    (valResult : Option (Bool × Nat)) : ServeResult :=
  match valResult with
  | none =>
    { status := 500, proxied := false, setCookie := none, tokenGenerated := none,
      limiterConsulted := true, validationInvoked := true, rl := rl }
  | some (valid, _backendStatus) =>
    if ¬ valid then
      { status := 404, proxied := false, setCookie := none, tokenGenerated := none,
        limiterConsulted := true, validationInvoked := true, rl := rl }
    else if st.fullAccessAfterKnock then
      let token := generateToken tc now cfg.cookieMaxAge cfg.signingKey
      { status := 200, proxied := true,
        setCookie := some { value := token, domain := svc.domain },
        tokenGenerated := some token,
        limiterConsulted := true, validationInvoked := true, rl := rl }
    else
      { status := 200, proxied := true, setCookie := none, tokenGenerated := none,
        limiterConsulted := true, validationInvoked := true, rl := rl }

/-- Handler.ServeHTTP of the multi-service handler: resolve the hostname
(404 when unconfigured), look up the service type (500 when the
configured type is unsupported), proxy immediately on a valid session
cookie when the service type grants full access after knock, otherwise
rate-limit and validate share paths via handleShareKnock, and answer 403
on every other path (the Go code has two textually separate 403 branches,
one for each FullAccessAfterKnock polarity, with identical behaviour). -/
def serveHTTP (cfg : HandlerConfig) (tc : TokenCodec) (rl : RateLimiter)
    (now : Int) (req : Request) (valResult : Option (Bool × Nat)) : ServeResult :=
  match cfg.services req.host with
  | none =>
    { status := 404, proxied := false, setCookie := none, tokenGenerated := none,
      limiterConsulted := false, validationInvoked := false, rl := rl }
  | some svc =>
    match supportedServices svc.type with
    | none =>
      { status := 500, proxied := false, setCookie := none, tokenGenerated := none,
        limiterConsulted := false, validationInvoked := false, rl := rl }
    | some st =>
      if st.fullAccessAfterKnock && cookieTokenValid tc now cfg.signingKey req then
        { status := 200, proxied := true, setCookie := none, tokenGenerated := none,
          limiterConsulted := false, validationInvoked := false, rl := rl }
      else if isSharePath req.path st then
        let allowed := rl.isAllowed now (getClientIP req)
        if ¬ allowed.1 then
          { status := 429, proxied := false, setCookie := none, tokenGenerated := none,
            limiterConsulted := true, validationInvoked := false, rl := allowed.2 }
        else
          handleShareKnock cfg tc now svc st allowed.2 valResult
      else
        { status := 403, proxied := false, setCookie := none, tokenGenerated := none,
          limiterConsulted := false, validationInvoked := false, rl := rl }

/-! ### A concrete executable codec instance for witnesses

The theorems about the token authority are stated for every codec whose
encode round-trips and whose encode and mac outputs are dot-free and
non-empty, the properties base64url and HMAC-SHA256 give the Go code.
The instance below has those properties on the inputs the witnesses use
and lets the statements be evaluated on concrete tokens. -/

/-- Concrete claim encoding: the two integers separated by the letter x
(dot-free, invertible). -/
def encClaims (c : TokenClaims) : String :=
  toString c.issuedAt ++ "x" ++ toString c.expiresAt

/-- Accumulating decimal parser for the demo codec. -/
def parseNatAux : List Char → Nat → Option Nat
  | [], acc => some acc
  | c :: rest, acc =>
    if 48 ≤ c.toNat ∧ c.toNat ≤ 57 then parseNatAux rest (acc * 10 + (c.toNat - 48))
    else none

/-- Decimal digits to a natural number; empty input fails. -/
def parseNatDigits : List Char → Option Nat
  | [] => none
  | cs => parseNatAux cs 0

/-- Signed decimal parser for the demo codec. -/
def parseIntChars (cs : List Char) : Option Int :=
  match cs with
  | c :: rest =>
    if c = '-' then (parseNatDigits rest).map (fun n => -(n : Int))
    else (parseNatDigits cs).map (fun n => (n : Int))
  | [] => none

/-- Concrete claim decoding, inverse of encClaims. -/
def decClaims (s : String) : Option TokenClaims :=
  match goSplitChar s 'x' with
  | [a, b] =>
    match parseIntChars a.data, parseIntChars b.data with
    | some i, some e => some { issuedAt := i, expiresAt := e }
    | _, _ => none
  | _ => none

/-- Concrete keyed MAC stand-in: dot-free and never empty, which is all
the control flow under verification observes of HMAC-SHA256. -/
def macDemo (signingKey msg : String) : String :=
  "s" ++ toString msg.length ++ "k" ++ toString signingKey.length ++ "h"
    ++ toString (msg.data.foldl (fun acc c => acc + c.toNat) 0)

/-- The concrete codec used by witnesses and counterexamples. -/
def demoCodec : TokenCodec :=
  { encode := encClaims, decode := decClaims, mac := macDemo }

/-! ### The admission rule in the words of the claim

The claim (and the spec) say IsAllowed discards only entries OLDER than
now - window, i.e. keeps an entry lying exactly at the cutoff; the code
keeps only entries strictly after the cutoff.  This variant follows the
claim's words, to be compared with RateLimiter.isAllowed. -/

/-- Modelled from the spec: the admission check as the claim words it,
pruning the window to entries at or after now - window and otherwise
proceeding as the code does. -/
def isAllowedClaimed (rl : RateLimiter) (now : Int) (ip : String) :
    Bool × RateLimiter :=
  let cutoff := now - rl.window
  let validRequests := (rl.requests ip).filter (fun reqTime => cutoff ≤ reqTime)
  if rl.maxReqs ≤ (validRequests.length : Int) then
    (false, { rl with requests := updateMap rl.requests ip validRequests })
  else
    (true, { rl with requests := updateMap rl.requests ip (validRequests ++ [now]) })

/-! ### Lemmas about the string helpers and the token split -/

theorem splitCharAux_no_sep (sep : Char) (cs : List Char) (h : cs.contains sep = false) :
    ∀ acc : List Char, splitCharAux sep cs acc = [acc ++ cs] := by
  induction cs with
  | nil => intro acc; simp [splitCharAux]
  | cons c rest ih =>
    intro acc
    simp only [List.contains_cons, Bool.or_eq_false_iff, beq_eq_false_iff_ne] at h
    rw [splitCharAux, if_neg (by exact fun hc => h.1 hc.symm)]
    rw [ih h.2]
    simp

theorem goSplitChar_no_sep (s : String) (sep : Char) (h : s.data.contains sep = false) :
    goSplitChar s sep = [s] := by
  rw [goSplitChar, splitCharAux_no_sep sep s.data h]
  simp

theorem splitTokenGo_no_dot (cs : List Char) (h : cs.contains '.' = false) :
    ∀ acc : List Char,
      splitTokenGo cs acc = if acc ++ cs = [] then [] else [acc ++ cs] := by
  induction cs with
  | nil => intro acc; simp [splitTokenGo]
  | cons c rest ih =>
    intro acc
    simp only [List.contains_cons, Bool.or_eq_false_iff, beq_eq_false_iff_ne] at h
    rw [splitTokenGo, if_neg (by exact fun hc => h.1 hc.symm), ih h.2]
    simp

theorem splitTokenGo_append_dot (a b : List Char) (ha : a.contains '.' = false) :
    ∀ acc : List Char,
      splitTokenGo (a ++ '.' :: b) acc = (acc ++ a) :: splitTokenGo b [] := by
  induction a with
  | nil => intro acc; simp [splitTokenGo]
  | cons c rest ih =>
    intro acc
    simp only [List.contains_cons, Bool.or_eq_false_iff, beq_eq_false_iff_ne] at ha
    rw [List.cons_append, splitTokenGo, if_neg (by exact fun hc => ha.1 hc.symm),
      ih ha.2]
    simp

theorem data_append3 (a b : String) :
    (a ++ "." ++ b).data = a.data ++ '.' :: b.data := by
  simp [String.data_append]

theorem splitToken_two_parts (a b : String) (ha : hasDot a = false)
    (hb : hasDot b = false) (hb2 : b ≠ "") : splitToken (a ++ "." ++ b) = [a, b] := by
  have hbd : b.data ≠ [] := by
    intro hnil
    apply hb2
    cases b with
    | mk l => cases hnil; rfl
  rw [splitToken, data_append3, splitTokenGo_append_dot a.data b.data ha,
    splitTokenGo_no_dot b.data hb, if_neg (by simpa using hbd)]
  simp

theorem splitToken_trailing_dot (a b : String) (ha : hasDot a = false)
    (hb : hasDot b = false) : splitToken (a ++ "." ++ b ++ ".") = [a, b] := by
  have hdata : (a ++ "." ++ b ++ ".").data = a.data ++ '.' :: (b.data ++ '.' :: []) := by
    simp [String.data_append]
  rw [splitToken, hdata, splitTokenGo_append_dot a.data _ ha,
    splitTokenGo_append_dot b.data [] hb]
  simp [splitTokenGo]

/-! ### Lemmas about the rate limiter -/

/-- Invariant tying a limiter state to its configured limit: the limit
field equals m and every identity's stored list has at most m entries. -/
def boundedBy (rl : RateLimiter) (m : Int) : Prop :=
  rl.maxReqs = m ∧ ∀ ip : String, ((rl.requests ip).length : Int) ≤ m

theorem length_filter_le_int (p : Int → Bool) (l : List Int) (m : Int)
    (h : (l.length : Int) ≤ m) : ((l.filter p).length : Int) ≤ m :=
  le_trans (by exact_mod_cast l.length_filter_le p) h

theorem isAllowed_preserves_boundedBy (rl : RateLimiter) (now : Int) (ip : String)
    (m : Int) (h : boundedBy rl m) : boundedBy ((rl.isAllowed now ip).2) m := by
  obtain ⟨hm, hb⟩ := h
  unfold RateLimiter.isAllowed
  dsimp only
  split
  · refine ⟨hm, fun j => ?_⟩
    by_cases hj : j = ip
    · subst hj
      simp only [updateMap, if_pos rfl]
      exact length_filter_le_int _ _ m (hb j)
    · simpa [updateMap, hj] using hb j
  · rename_i hlt
    refine ⟨hm, fun j => ?_⟩
    by_cases hj : j = ip
    · subst hj
      rw [hm] at hlt
      have hlen := lt_of_not_le hlt
      simp [updateMap]
      omega
    · simpa [updateMap, hj] using hb j

theorem cleanupTick_preserves_boundedBy (rl : RateLimiter) (now : Int) (m : Int)
    (h : boundedBy rl m) : boundedBy (rl.cleanupTick now) m := by
  obtain ⟨hm, hb⟩ := h
  exact ⟨hm, fun j => length_filter_le_int _ _ m (hb j)⟩

theorem apply_preserves_boundedBy (rl : RateLimiter) (op : RLOp) (m : Int)
    (h : boundedBy rl m) : boundedBy (RLOp.apply rl op) m := by
  cases op with
  | allow now ip => exact isAllowed_preserves_boundedBy rl now ip m h
  | count now ip => exact h
  | tick now => exact cleanupTick_preserves_boundedBy rl now m h

theorem runOps_preserves_boundedBy (ops : List RLOp) :
    ∀ (rl : RateLimiter) (m : Int), boundedBy rl m → boundedBy (runOps rl ops) m := by
  induction ops with
  | nil => intro rl m h; exact h
  | cons op rest ih =>
    intro rl m h
    exact ih (RLOp.apply rl op) m (apply_preserves_boundedBy rl op m h)

theorem filter_replicate_pos (p : Int → Bool) (t : Int) (m : Nat) (h : p t = true) :
    (List.replicate m t).filter p = List.replicate m t := by
  induction m with
  | zero => rfl
  | succ k ih => rw [List.replicate_succ, List.filter_cons, if_pos h, ih]

theorem filter_replicate_neg (p : Int → Bool) (t : Int) (m : Nat) (h : p t = false) :
    (List.replicate m t).filter p = [] := by
  induction m with
  | zero => rfl
  | succ k ih => rw [List.replicate_succ, List.filter_cons]; simp [h, ih]

/-- Run IsAllowed once per listed call time, collecting the boolean
results and the final limiter state. -/
def allowRun (rl : RateLimiter) (ip : String) : List Int → List Bool × RateLimiter
  | [] => ([], rl)
  | t :: ts =>
    let r := rl.isAllowed t ip
    let rest := allowRun r.2 ip ts
    (r.1 :: rest.1, rest.2)

theorem allowRun_const (N : Nat) (W t : Int) (hW : 0 < W) (ip : String) :
    ∀ (k m : Nat) (rl : RateLimiter), rl.window = W → rl.maxReqs = (N : Int) →
      rl.requests ip = List.replicate m t → m + k ≤ N →
      (allowRun rl ip (List.replicate k t)).1 = List.replicate k true ∧
      (allowRun rl ip (List.replicate k t)).2.requests ip = List.replicate (m + k) t ∧
      (allowRun rl ip (List.replicate k t)).2.maxReqs = (N : Int) ∧
      (allowRun rl ip (List.replicate k t)).2.window = W := by
  intro k
  induction k with
  | zero =>
    intro m rl hw hmax hreq _
    exact ⟨rfl, by simpa [allowRun] using hreq, by simpa [allowRun] using hmax,
      by simpa [allowRun] using hw⟩
  | succ k ih =>
    intro m rl hw hmax hreq hle
    have hfilter : (rl.requests ip).filter (fun s => t - rl.window < s)
        = List.replicate m t := by
      rw [hreq]
      exact filter_replicate_pos _ t m (by simp; omega)
    have hcond : ¬ rl.maxReqs ≤ ((List.replicate m t).length : Int) := by
      rw [hmax, List.length_replicate]
      have : m < N := by omega
      exact_mod_cast not_le.mpr (by exact_mod_cast this)
    have hstep : rl.isAllowed t ip =
        (true, { rl with
                 requests := updateMap rl.requests ip (List.replicate m t ++ [t]) }) := by
      unfold RateLimiter.isAllowed
      dsimp only
      rw [hfilter, if_neg hcond]
    rw [List.replicate_succ, allowRun, hstep]
    have hreq2 : (updateMap rl.requests ip (List.replicate m t ++ [t])) ip
        = List.replicate (m + 1) t := by
      rw [updateMap, if_pos rfl, ← List.replicate_succ']
    obtain ⟨h1, h2, h3, h4⟩ := ih (m + 1)
      { rl with requests := updateMap rl.requests ip (List.replicate m t ++ [t]) }
      hw hmax hreq2 (by omega)
    refine ⟨by rw [List.replicate_succ]; simpa using h1, ?_, h3, h4⟩
    rw [h2]
    congr 1
    omega

/-! ### Concrete fixtures used by witnesses and counterexamples -/

/-- A configured paperless backend (FullAccessAfterKnock is false). -/
def demoServiceCfg : ServiceConfig :=
  { type := "paperless", url := "http://paperless:8000", domain := "docs.example" }

/-- A registry with the paperless backend bound to docs.example. -/
def demoCfg : HandlerConfig :=
  { services := fun h => if h = "docs.example" then some demoServiceCfg else none,
    signingKey := "k", cookieMaxAge := 100 }

/-- A token issued at time 0 with lifetime 100 under the demo codec. -/
def demoToken : String := generateToken demoCodec 0 100 "k"

/-- A request to a non-share path on docs.example carrying the token. -/
def demoReqNonShare : Request :=
  { host := "docs.example", method := "GET", path := "/anything",
    cookie := some demoToken, xForwardedFor := "", xRealIP := "",
    remoteAddr := "1.2.3.4:55" }

/-- The same request aimed at a share path. -/
def demoReqShare : Request := { demoReqNonShare with path := "/share/abc" }

/-- A registry with an immich backend (FullAccessAfterKnock is true). -/
def demoPhotosCfg : HandlerConfig :=
  { services := fun h =>
      if h = "photos.example" then
        some { type := "immich", url := "http://immich:2283", domain := "photos.example" }
      else none,
    signingKey := "k", cookieMaxAge := 100 }

/-- A token-carrying request to a non-share path on photos.example. -/
def demoReqPhotos : Request :=
  { host := "photos.example", method := "GET", path := "/whatever",
    cookie := some demoToken, xForwardedFor := "", xRealIP := "",
    remoteAddr := "1.2.3.4:55" }

/-! ### Claim theorems -/

/-- C7: extractShareKey with prefix /share/ maps /share/XyZ789,
/share/XyZ789/ and /share/XyZ789?x=1 all to the key XyZ789, and maps
every path that does not start with the prefix to the empty key. -/
theorem C7_extract_share_key :
    extractShareKey "/share/XyZ789" "/share/" = "XyZ789" ∧
    extractShareKey "/share/XyZ789/" "/share/" = "XyZ789" ∧
    extractShareKey "/share/XyZ789?x=1" "/share/" = "XyZ789" ∧
    ∀ p : String, goHasPrefix p "/share/" = false →
      extractShareKey p "/share/" = "" := by
  refine ⟨by decide, by decide, by decide, fun p h => ?_⟩
  simp [extractShareKey, h]

/-- C7 witness: the final clause evaluated on a path outside the
prefix. -/
theorem C7_extract_share_key_witness :
    extractShareKey "/other/XyZ789" "/share/" = "" :=
  C7_extract_share_key.2.2.2 "/other/XyZ789" (by decide)

/-- C8: a request whose Host is not a key of the service registry is
answered 404 with nothing proxied, no cookie, no token, the rate limiter
never consulted, ValidateShare never invoked and the limiter state
untouched, whatever the path, method, cookies, and probe outcome. -/
theorem C8_unknown_host (cfg : HandlerConfig) (tc : TokenCodec) (rl : RateLimiter)
    (now : Int) (req : Request) (valResult : Option (Bool × Nat))
    (h : cfg.services req.host = none) :
    serveHTTP cfg tc rl now req valResult =
      { status := 404, proxied := false, setCookie := none, tokenGenerated := none,
        limiterConsulted := false, validationInvoked := false, rl := rl } := by
  simp [serveHTTP, h]

/-- C8 witness: a host absent from the demo registry. -/
theorem C8_unknown_host_witness :
    serveHTTP demoCfg demoCodec (RateLimiter.empty 1 1) 0
        { demoReqNonShare with host := "other.example" } none =
      { status := 404, proxied := false, setCookie := none, tokenGenerated := none,
        limiterConsulted := false, validationInvoked := false,
        rl := RateLimiter.empty 1 1 } :=
  C8_unknown_host demoCfg demoCodec (RateLimiter.empty 1 1) 0
    { demoReqNonShare with host := "other.example" } none (by decide)

/-- C10: the client identity is the trimmed first comma-separated entry
of X-Forwarded-For when that header is non-empty, else the trimmed
X-Real-IP when non-empty, else RemoteAddr cut before its last colon and
stripped of surrounding brackets; hence a direct client can pick any
comma-free identity by sending it as X-Forwarded-For. -/
theorem C10_client_identity :
    (∀ req : Request, req.xForwardedFor ≠ "" →
      getClientIP req = goTrimSpace ((goSplitChar req.xForwardedFor ',').headD "")) ∧
    (∀ req : Request, req.xForwardedFor = "" → req.xRealIP ≠ "" →
      getClientIP req = goTrimSpace req.xRealIP) ∧
    (∀ req : Request, req.xForwardedFor = "" → req.xRealIP = "" →
      getClientIP req =
        trimCutset (String.mk (dropAfterLastColon req.remoteAddr.data)) ['[', ']']) ∧
    (∀ (req : Request) (id : String), id ≠ "" → id.data.contains ',' = false →
      goTrimSpace id = id → getClientIP { req with xForwardedFor := id } = id) := by
  refine ⟨fun req h => by simp [getClientIP, h],
    fun req h1 h2 => by simp [getClientIP, h1, h2],
    fun req h1 h2 => by simp [getClientIP, h1, h2],
    fun req id h1 h2 h3 => ?_⟩
  simp [getClientIP, h1, goSplitChar_no_sep id ',' h2, h3]

/-- C10 witness: a spoofed X-Forwarded-For header fixes the identity. -/
theorem C10_client_identity_witness :
    getClientIP { demoReqNonShare with xForwardedFor := "10.0.0.7" } = "10.0.0.7" :=
  C10_client_identity.2.2.2 demoReqNonShare "10.0.0.7" (by decide) (by decide)
    (by decide)

/-- C4 counterexample: at verification time 100, which is at (not after)
the embedded expiry 0 + 100, the claim says the token must be rejected,
but validation accepts it: Go rejects only when time.Now().After(exp). -/
theorem C4_counterexample :
    (0 : Int) + 100 ≤ 100 ∧
    validateToken demoCodec 100 (generateToken demoCodec 0 100 "k") "k" =
      some { issuedAt := 0, expiresAt := 100 } := by decide

/-- C4 (amended): for every codec whose encode round-trips and whose
encode and mac outputs are dot-free with a non-empty mac (the properties
of base64url-JSON and base64url-HMAC-SHA256), a token issued at time now
with positive maxAge verifies immediately, and verification at time now2
rejects it exactly when now2 is strictly after expiresAt = now + maxAge. -/
theorem C4_roundtrip_and_expiry (tc : TokenCodec) (signingKey : String)
    (now maxAge now2 : Int) (hage : 0 < maxAge)
    (hdec : tc.decode (tc.encode { issuedAt := now, expiresAt := now + maxAge }) =
      some { issuedAt := now, expiresAt := now + maxAge })
    (henc : hasDot (tc.encode { issuedAt := now, expiresAt := now + maxAge }) = false)
    (hmac1 : hasDot (tc.mac signingKey
      (tc.encode { issuedAt := now, expiresAt := now + maxAge })) = false)
    (hmac2 : tc.mac signingKey
      (tc.encode { issuedAt := now, expiresAt := now + maxAge }) ≠ "") :
    validateToken tc now (generateToken tc now maxAge signingKey) signingKey =
      some { issuedAt := now, expiresAt := now + maxAge } ∧
    (validateToken tc now2 (generateToken tc now maxAge signingKey) signingKey = none ↔
      now + maxAge < now2) := by
  have hchar : ∀ t : Int,
      validateToken tc t (generateToken tc now maxAge signingKey) signingKey =
        if now + maxAge < t then none
        else some { issuedAt := now, expiresAt := now + maxAge } := by
    intro t
    unfold generateToken validateToken
    dsimp only
    rw [splitToken_two_parts _ _ henc hmac1 hmac2]
    simp [hdec]
  constructor
  · rw [hchar now, if_neg (by omega)]
  · rw [hchar now2]
    constructor
    · intro h
      by_contra hc
      rw [if_neg hc] at h
      exact Option.noConfusion h
    · intro h
      rw [if_pos h]

/-- C4 witness: the amended statement evaluated with the demo codec at
issue time 0, lifetime 100 and verification time 150. -/
theorem C4_roundtrip_and_expiry_witness :
    validateToken demoCodec 0 (generateToken demoCodec 0 100 "k") "k" =
      some { issuedAt := 0, expiresAt := 0 + 100 } ∧
    (validateToken demoCodec 150 (generateToken demoCodec 0 100 "k") "k" = none ↔
      (0 : Int) + 100 < 150) :=
  C4_roundtrip_and_expiry demoCodec "k" 0 100 150 (by decide) (by decide) (by decide)
    (by decide) (by decide)

/-- C5 counterexample: appending a dot to a freshly issued token yields a
string with two dot separators, which the claim says must always fail
verification, yet it verifies: splitToken drops the trailing empty
segment. -/
theorem C5_counterexample :
    countDots (generateToken demoCodec 0 100 "k" ++ ".") = 2 ∧
    validateToken demoCodec 5 (generateToken demoCodec 0 100 "k" ++ ".") "k" =
      some { issuedAt := 0, expiresAt := 100 } := by decide

/-- C5 (amended): verification rejects every token whose splitToken
result, which drops a trailing empty segment, does not have exactly two
parts; in particular every dot-free token is rejected, for every codec
and key; but a single trailing dot after a two-part token is ignored
rather than rejected. -/
theorem C5_token_format (tc : TokenCodec) (now : Int) (signingKey token a b : String)
    (hb2 : b ≠ "") :
    ((splitToken token).length ≠ 2 → validateToken tc now token signingKey = none) ∧
    (hasDot token = false → validateToken tc now token signingKey = none) ∧
    (hasDot a = false → hasDot b = false →
      validateToken tc now (a ++ "." ++ b ++ ".") signingKey =
        validateToken tc now (a ++ "." ++ b) signingKey) := by
  refine ⟨?_, ?_, ?_⟩
  · intro h
    unfold validateToken
    rcases hs : splitToken token with _ | ⟨x, _ | ⟨y, _ | ⟨z, rest⟩⟩⟩
    · rfl
    · rfl
    · exact absurd (by rw [hs]; rfl) h
    · rfl
  · intro h
    unfold validateToken
    have : splitToken token = if token.data = [] then [] else [token] := by
      rw [splitToken, splitTokenGo_no_dot token.data h]
      rcases hd : token.data with _ | ⟨c, cs⟩
      · simp
      · simp only [List.nil_append, if_neg (List.cons_ne_nil c cs)]
        simp [← hd]
    rw [this]
    rcases hd : token.data with _ | ⟨c, cs⟩ <;> simp [hd]
  · intro ha hb
    rw [validateToken, validateToken, splitToken_two_parts a b ha hb hb2,
      splitToken_trailing_dot a b ha hb]

/-- C5 witness: a dot-free token is rejected under the demo codec. -/
theorem C5_token_format_witness :
    validateToken demoCodec 0 "abc" "k" = none :=
  (C5_token_format demoCodec 0 "k" "abc" "x" "y" (by decide)).2.1 (by decide)

/-- C3 counterexample: with max 1 and window 10, after one allowed call
at time 0 the code allows again at time exactly 10, because the entry at
the cutoff 10 - 10 is discarded by the strict comparison; the claim's
pruning rule (discard only entries older than now - window) keeps that
entry, counts it, and predicts refusal. -/
theorem C3_counterexample :
    ((RateLimiter.empty 1 10).isAllowed 0 "a").1 = true ∧
    (((RateLimiter.empty 1 10).isAllowed 0 "a").2.isAllowed 10 "a").1 = true ∧
    (isAllowedClaimed ((RateLimiter.empty 1 10).isAllowed 0 "a").2 10 "a").1 = false := by
  decide

/-- C3 (amended): each call prunes to the timestamps strictly newer than
now - window, refuses without recording when the pruned count has reached
the limit, and otherwise appends now and allows; consequently, starting
empty with limit N and window W, N calls at time t all return true, a
further call at any t2 in [t, t + W) returns false and records nothing,
and a call at any t3 with t + W ≤ t3 returns true again. -/
theorem C3_sliding_window (N : Nat) (W t t2 t3 : Int) (ip : String)
    (hN : 0 < N) (hW : 0 < W) (_h1 : t ≤ t2) (h2 : t2 < t + W) (h3 : t + W ≤ t3) :
    (∀ (rl : RateLimiter) (now : Int) (j : String),
      ((rl.isAllowed now j).1 = false ↔
        rl.maxReqs ≤
          (((rl.requests j).filter (fun s => now - rl.window < s)).length : Int)) ∧
      ((rl.isAllowed now j).1 = false →
        (rl.isAllowed now j).2.requests j =
          (rl.requests j).filter (fun s => now - rl.window < s)) ∧
      ((rl.isAllowed now j).1 = true →
        (rl.isAllowed now j).2.requests j =
          (rl.requests j).filter (fun s => now - rl.window < s) ++ [now])) ∧
    (allowRun (RateLimiter.empty (N : Int) W) ip (List.replicate N t)).1 =
      List.replicate N true ∧
    ((allowRun (RateLimiter.empty (N : Int) W) ip
        (List.replicate N t)).2.isAllowed t2 ip).1 = false ∧
    ((allowRun (RateLimiter.empty (N : Int) W) ip
        (List.replicate N t)).2.isAllowed t2 ip).2.requests ip =
      (allowRun (RateLimiter.empty (N : Int) W) ip (List.replicate N t)).2.requests ip ∧
    ((allowRun (RateLimiter.empty (N : Int) W) ip
        (List.replicate N t)).2.isAllowed t3 ip).1 = true := by
  have hpercall : ∀ (rl : RateLimiter) (now : Int) (j : String),
      ((rl.isAllowed now j).1 = false ↔
        rl.maxReqs ≤
          (((rl.requests j).filter (fun s => now - rl.window < s)).length : Int)) ∧
      ((rl.isAllowed now j).1 = false →
        (rl.isAllowed now j).2.requests j =
          (rl.requests j).filter (fun s => now - rl.window < s)) ∧
      ((rl.isAllowed now j).1 = true →
        (rl.isAllowed now j).2.requests j =
          (rl.requests j).filter (fun s => now - rl.window < s) ++ [now]) := by
    intro rl now j
    unfold RateLimiter.isAllowed
    dsimp only
    split
    · rename_i hcond
      refine ⟨?_, ?_, ?_⟩
      · exact ⟨fun _ => hcond, fun _ => rfl⟩
      · intro _
        simp [updateMap]
      · intro hfalse
        exact Bool.noConfusion hfalse
    · rename_i hcond
      refine ⟨?_, ?_, ?_⟩
      · exact ⟨fun htf => Bool.noConfusion htf, fun hle => absurd hle hcond⟩
      · intro htf
        exact Bool.noConfusion htf
      · intro _
        simp [updateMap]
  obtain ⟨hres, hreq, hmax, hwin⟩ :=
    allowRun_const N W t hW ip N 0 (RateLimiter.empty (N : Int) W) rfl rfl rfl
      (by omega)
  simp only [Nat.zero_add] at hreq
  set S := (allowRun (RateLimiter.empty (N : Int) W) ip (List.replicate N t)).2
    with hS
  have hptrue : decide (t2 - W < t) = true := by
    simp only [decide_eq_true_eq]
    omega
  have hpfalse : decide (t3 - W < t) = false := by
    simp only [decide_eq_false_iff_not]
    omega
  have hfalse2 : (S.isAllowed t2 ip).1 = false := by
    rw [(hpercall S t2 ip).1, hreq, hwin, filter_replicate_pos _ t N hptrue, hmax,
      List.length_replicate]
  refine ⟨hpercall, hres, hfalse2, ?_, ?_⟩
  · have hrec := (hpercall S t2 ip).2.1 hfalse2
    rw [hrec, hreq, hwin, filter_replicate_pos _ t N hptrue]
  · have hfil : (S.requests ip).filter (fun s => decide (t3 - S.window < s)) = [] := by
      rw [hreq, hwin]
      exact filter_replicate_neg _ t N hpfalse
    cases hb : (S.isAllowed t3 ip).1
    · exfalso
      have hge := (hpercall S t3 ip).1.mp hb
      rw [hfil, hmax] at hge
      simp at hge
      omega
    · rfl

/-- C3 witness: the amended statement evaluated with limit 2, window 10,
calls at time 0, a refused call at 5 and an allowed call at 10. -/
theorem C3_sliding_window_witness :
    (∀ (rl : RateLimiter) (now : Int) (j : String),
      ((rl.isAllowed now j).1 = false ↔
        rl.maxReqs ≤
          (((rl.requests j).filter (fun s => now - rl.window < s)).length : Int)) ∧
      ((rl.isAllowed now j).1 = false →
        (rl.isAllowed now j).2.requests j =
          (rl.requests j).filter (fun s => now - rl.window < s)) ∧
      ((rl.isAllowed now j).1 = true →
        (rl.isAllowed now j).2.requests j =
          (rl.requests j).filter (fun s => now - rl.window < s) ++ [now])) ∧
    (allowRun (RateLimiter.empty ((2 : Nat) : Int) 10) "a" (List.replicate 2 0)).1 =
      List.replicate 2 true ∧
    ((allowRun (RateLimiter.empty ((2 : Nat) : Int) 10) "a"
        (List.replicate 2 0)).2.isAllowed 5 "a").1 = false ∧
    ((allowRun (RateLimiter.empty ((2 : Nat) : Int) 10) "a"
        (List.replicate 2 0)).2.isAllowed 5 "a").2.requests "a" =
      (allowRun (RateLimiter.empty ((2 : Nat) : Int) 10) "a"
        (List.replicate 2 0)).2.requests "a" ∧
    ((allowRun (RateLimiter.empty ((2 : Nat) : Int) 10) "a"
        (List.replicate 2 0)).2.isAllowed 10 "a").1 = true :=
  C3_sliding_window 2 10 0 5 10 "a" (by decide) (by decide) (by decide) (by decide)
    (by decide)

/-- C9: starting from the empty map, after any sequence of IsAllowed,
GetRequestCount and cleanup-tick operations every identity's stored list
has at most maxReqs entries, and the GetRequestCount transition is the
identity on the state. -/
theorem C9_limiter_invariant (maxRequests window : Int) (hmax : 0 ≤ maxRequests)
    (ops : List RLOp) (ip : String) :
    (((runOps (RateLimiter.empty maxRequests window) ops).requests ip).length : Int)
        ≤ maxRequests ∧
    ∀ (rl : RateLimiter) (now : Int) (j : String),
      RLOp.apply rl (RLOp.count now j) = rl := by
  refine ⟨?_, fun rl now j => rfl⟩
  have h0 : boundedBy (RateLimiter.empty maxRequests window) maxRequests :=
    ⟨rfl, fun j => by simpa [RateLimiter.empty] using hmax⟩
  exact (runOps_preserves_boundedBy ops _ maxRequests h0).2 ip

/-- C9 witness: the invariant evaluated on a concrete operation
sequence. -/
theorem C9_limiter_invariant_witness :
    (((runOps (RateLimiter.empty 2 5)
        [RLOp.allow 0 "a", RLOp.allow 1 "a", RLOp.allow 2 "a", RLOp.tick 3,
         RLOp.count 3 "a", RLOp.allow 3 "a"]).requests "a").length : Int) ≤ 2 ∧
    ∀ (rl : RateLimiter) (now : Int) (j : String),
      RLOp.apply rl (RLOp.count now j) = rl :=
  C9_limiter_invariant 2 5 (by decide)
    [RLOp.allow 0 "a", RLOp.allow 1 "a", RLOp.allow 2 "a", RLOp.tick 3,
     RLOp.count 3 "a", RLOp.allow 3 "a"] "a"

/-- C1 counterexample: on the paperless service (FullAccessAfterKnock
false) a request carrying a cookie that passes token verification is NOT
proxied immediately: a non-share path is answered 403, and a share path
still consults the rate limiter and invokes validation — so the claimed
bypass does not hold regardless of the grantsSession setting. -/
theorem C1_counterexample :
    cookieTokenValid demoCodec 5 "k" demoReqNonShare = true ∧
    (serveHTTP demoCfg demoCodec (RateLimiter.empty 10 300) 5 demoReqNonShare
        (some (true, 200))).proxied = false ∧
    (serveHTTP demoCfg demoCodec (RateLimiter.empty 10 300) 5 demoReqNonShare
        (some (true, 200))).status = 403 ∧
    (serveHTTP demoCfg demoCodec (RateLimiter.empty 10 300) 5 demoReqShare
        (some (true, 200))).limiterConsulted = true ∧
    (serveHTTP demoCfg demoCodec (RateLimiter.empty 10 300) 5 demoReqShare
        (some (true, 200))).validationInvoked = true := by
  decide

/-- C1 (amended): on every configured service whose type has
FullAccessAfterKnock (grantsSession) true, a request carrying a cookie
that passes token verification is proxied immediately with status 200,
no cookie set, no token generated, the rate limiter never consulted, the
limiter state untouched and the validation strategy never invoked,
whatever the path and the probe outcome. -/
theorem C1_token_bypass (cfg : HandlerConfig) (tc : TokenCodec) (rl : RateLimiter)
    (now : Int) (req : Request) (valResult : Option (Bool × Nat))
    (svc : ServiceConfig) (st : ServiceType)
    (hsvc : cfg.services req.host = some svc)
    (hst : supportedServices svc.type = some st)
    (hfa : st.fullAccessAfterKnock = true)
    (htok : cookieTokenValid tc now cfg.signingKey req = true) :
    serveHTTP cfg tc rl now req valResult =
      { status := 200, proxied := true, setCookie := none, tokenGenerated := none,
        limiterConsulted := false, validationInvoked := false, rl := rl } := by
  simp [serveHTTP, hsvc, hst, hfa, htok]

/-- C1 witness: the amended statement on the immich registry with a valid
demo token. -/
theorem C1_token_bypass_witness :
    serveHTTP demoPhotosCfg demoCodec (RateLimiter.empty 10 300) 5 demoReqPhotos
        (some (true, 200)) =
      { status := 200, proxied := true, setCookie := none, tokenGenerated := none,
        limiterConsulted := false, validationInvoked := false,
        rl := RateLimiter.empty 10 300 } :=
  C1_token_bypass demoPhotosCfg demoCodec (RateLimiter.empty 10 300) 5 demoReqPhotos
    (some (true, 200))
    { type := "immich", url := "http://immich:2283", domain := "photos.example" }
    { name := "immich", sharePaths := ["/share/"], validateMethod := "immichApi",
      fullAccessAfterKnock := true }
    (by decide) (by decide) (by decide) (by decide)

/-- C2: a request to a share path without a valid session token whose
client identity the rate limiter refuses is answered 429, nothing is
proxied, and the validation strategy is never invoked; the limiter state
is the one the refusing IsAllowed call produced. -/
theorem C2_rate_limited (cfg : HandlerConfig) (tc : TokenCodec) (rl : RateLimiter)
    (now : Int) (req : Request) (valResult : Option (Bool × Nat))
    (svc : ServiceConfig) (st : ServiceType)
    (hsvc : cfg.services req.host = some svc)
    (hst : supportedServices svc.type = some st)
    (htok : st.fullAccessAfterKnock = true →
      cookieTokenValid tc now cfg.signingKey req = false)
    (hshare : isSharePath req.path st = true)
    (hrate : (rl.isAllowed now (getClientIP req)).1 = false) :
    (serveHTTP cfg tc rl now req valResult).status = 429 ∧
    (serveHTTP cfg tc rl now req valResult).validationInvoked = false ∧
    (serveHTTP cfg tc rl now req valResult).proxied = false ∧
    (serveHTTP cfg tc rl now req valResult).rl =
      (rl.isAllowed now (getClientIP req)).2 := by
  have hcond : (st.fullAccessAfterKnock && cookieTokenValid tc now cfg.signingKey req)
      = false := by
    cases hfa : st.fullAccessAfterKnock with
    | false => simp
    | true => simp [htok hfa]
  refine ⟨?_, ?_, ?_, ?_⟩ <;> simp [serveHTTP, hsvc, hst, hcond, hshare, hrate]

/-- C2 witness: a limiter already at its limit for the client identity
refuses the knock with 429 and validation never runs. -/
theorem C2_rate_limited_witness :
    (serveHTTP demoCfg demoCodec
        { requests := fun j => if j = "1.2.3.4" then [4] else [], maxReqs := 1,
          window := 10 } 5 { demoReqShare with cookie := none }
        (some (true, 200))).status = 429 ∧
    (serveHTTP demoCfg demoCodec
        { requests := fun j => if j = "1.2.3.4" then [4] else [], maxReqs := 1,
          window := 10 } 5 { demoReqShare with cookie := none }
        (some (true, 200))).validationInvoked = false ∧
    (serveHTTP demoCfg demoCodec
        { requests := fun j => if j = "1.2.3.4" then [4] else [], maxReqs := 1,
          window := 10 } 5 { demoReqShare with cookie := none }
        (some (true, 200))).proxied = false ∧
    (serveHTTP demoCfg demoCodec
        { requests := fun j => if j = "1.2.3.4" then [4] else [], maxReqs := 1,
          window := 10 } 5 { demoReqShare with cookie := none }
        (some (true, 200))).rl =
      ({ requests := fun j => if j = "1.2.3.4" then [4] else [], maxReqs := 1,
         window := 10 : RateLimiter }.isAllowed 5
        (getClientIP { demoReqShare with cookie := none })).2 :=
  C2_rate_limited demoCfg demoCodec
    { requests := fun j => if j = "1.2.3.4" then [4] else [], maxReqs := 1,
      window := 10 } 5 { demoReqShare with cookie := none } (some (true, 200))
    demoServiceCfg
    { name := "paperless", sharePaths := ["/share/"], validateMethod := "head",
      fullAccessAfterKnock := false }
    (by decide) (by decide) (by decide) (by decide) (by decide)

/-- C6: on an admitted share-path knock whose validation succeeded, a
service type with grantsSession false gets the single request proxied
with no cookie set and no token generated, while a service type with
grantsSession true gets a token issued and attached as a cookie whose
Domain is the service's configured domain before proxying. -/
theorem C6_session_policy (cfg : HandlerConfig) (tc : TokenCodec) (rl : RateLimiter)
    (now : Int) (req : Request) (valResult : Option (Bool × Nat))
    (svc : ServiceConfig) (st : ServiceType) (bstatus : Nat)
    (hsvc : cfg.services req.host = some svc)
    (hst : supportedServices svc.type = some st)
    (htok : st.fullAccessAfterKnock = true →
      cookieTokenValid tc now cfg.signingKey req = false)
    (hshare : isSharePath req.path st = true)
    (hallow : (rl.isAllowed now (getClientIP req)).1 = true)
    (hval : valResult = some (true, bstatus)) :
    (st.fullAccessAfterKnock = false →
      (serveHTTP cfg tc rl now req valResult).status = 200 ∧
      (serveHTTP cfg tc rl now req valResult).proxied = true ∧
      (serveHTTP cfg tc rl now req valResult).setCookie = none ∧
      (serveHTTP cfg tc rl now req valResult).tokenGenerated = none) ∧
    (st.fullAccessAfterKnock = true →
      (serveHTTP cfg tc rl now req valResult).status = 200 ∧
      (serveHTTP cfg tc rl now req valResult).proxied = true ∧
      (serveHTTP cfg tc rl now req valResult).setCookie =
        some { value := generateToken tc now cfg.cookieMaxAge cfg.signingKey,
               domain := svc.domain } ∧
      (serveHTTP cfg tc rl now req valResult).tokenGenerated =
        some (generateToken tc now cfg.cookieMaxAge cfg.signingKey)) := by
  have hcond : (st.fullAccessAfterKnock && cookieTokenValid tc now cfg.signingKey req)
      = false := by
    cases hfa : st.fullAccessAfterKnock with
    | false => simp
    | true => simp [htok hfa]
  constructor <;> intro hfa
  · refine ⟨?_, ?_, ?_, ?_⟩ <;>
      simp [serveHTTP, hsvc, hst, hcond, hshare, hallow, hval, handleShareKnock, hfa]
  · have hcv := htok hfa
    refine ⟨?_, ?_, ?_, ?_⟩ <;>
      simp [serveHTTP, hsvc, hst, hcond, hshare, hallow, hval, handleShareKnock, hfa,
        hcv]

/-- C6 witness: a valid knock on the paperless service is proxied with no
cookie and no token. -/
theorem C6_session_policy_witness :
    (ServiceType.fullAccessAfterKnock
        { name := "paperless", sharePaths := ["/share/"], validateMethod := "head",
          fullAccessAfterKnock := false } = false →
      (serveHTTP demoCfg demoCodec (RateLimiter.empty 10 300) 5
          { demoReqShare with cookie := none } (some (true, 200))).status = 200 ∧
      (serveHTTP demoCfg demoCodec (RateLimiter.empty 10 300) 5
          { demoReqShare with cookie := none } (some (true, 200))).proxied = true ∧
      (serveHTTP demoCfg demoCodec (RateLimiter.empty 10 300) 5
          { demoReqShare with cookie := none } (some (true, 200))).setCookie = none ∧
      (serveHTTP demoCfg demoCodec (RateLimiter.empty 10 300) 5
          { demoReqShare with cookie := none } (some (true, 200))).tokenGenerated
        = none) ∧
    (ServiceType.fullAccessAfterKnock
        { name := "paperless", sharePaths := ["/share/"], validateMethod := "head",
          fullAccessAfterKnock := false } = true →
      (serveHTTP demoCfg demoCodec (RateLimiter.empty 10 300) 5
          { demoReqShare with cookie := none } (some (true, 200))).status = 200 ∧
      (serveHTTP demoCfg demoCodec (RateLimiter.empty 10 300) 5
          { demoReqShare with cookie := none } (some (true, 200))).proxied = true ∧
      (serveHTTP demoCfg demoCodec (RateLimiter.empty 10 300) 5
          { demoReqShare with cookie := none } (some (true, 200))).setCookie =
        some { value := generateToken demoCodec 5 demoCfg.cookieMaxAge
                 demoCfg.signingKey,
               domain := demoServiceCfg.domain } ∧
      (serveHTTP demoCfg demoCodec (RateLimiter.empty 10 300) 5
          { demoReqShare with cookie := none } (some (true, 200))).tokenGenerated =
        some (generateToken demoCodec 5 demoCfg.cookieMaxAge demoCfg.signingKey)) :=
  C6_session_policy demoCfg demoCodec (RateLimiter.empty 10 300) 5
    { demoReqShare with cookie := none } (some (true, 200)) demoServiceCfg
    { name := "paperless", sharePaths := ["/share/"], validateMethod := "head",
      fullAccessAfterKnock := false } 200
    (by decide) (by decide) (by decide) (by decide) (by decide) (by decide)

end SneakLink
